import Mathlib

/-!
# Verification of the investment-hub portfolio analytics engine

Shallow embedding of the portfolio analytics code (mock-data generator,
metrics engine, allocation engine, transaction analytics) of the
investment-hub repository, together with theorems settling the frozen
claims about its specification.

Conventions of the embedding:
* JS numbers are modelled as rationals (`ℚ`); the single square root in the
  volatility pipeline maps into `ℝ` via `Real.sqrt`.
* A JS arithmetic result that is `NaN` or `±Infinity` (e.g. from a division
  by zero) is modelled as `none : Option ℚ`; `jsDiv` is the guarded division.
* JS out-of-range array indexing (which yields `undefined`) is modelled by
  `jsIndex`, returning `none` for negative or too-large indices.
* `x || y` applied to a number (falsy exactly on `0`/`NaN`/`undefined`) is
  modelled by `orFalsy`.
* `Array.prototype.sort` is stable (ES2019); it is modelled by the stable
  `List.insertionSort` with the comparator's induced total preorder.
* JS `Map` / plain-object grouping preserves first-insertion key order and
  updates values in place; it is modelled by association lists with an
  update-or-append operation.
* Dates carry no intraday precision in this code; they are modelled as `Int`.
-/

namespace Hub

/-- A held instrument, mirroring the `Position` interface of the source. -/
structure Position where
  symbol : String
  name : String
  quantity : ℚ
  costBasis : ℚ
  currentPrice : ℚ
  marketValue : ℚ
  gainLoss : ℚ
  gainLossPercent : ℚ
  sector : String
  assetType : String
  deriving DecidableEq

instance : Inhabited Position :=
  ⟨⟨"", "", 0, 0, 0, 0, 0, 0, "", "stock"⟩⟩

/-- Transaction type enumeration of the source (`'buy' | 'sell' | 'dividend'`). -/
inductive TxType where
  | buy
  | sell
  | dividend
  deriving DecidableEq

/-- A ledger event, mirroring the `Transaction` interface of the source. -/
structure Transaction where
  id : String
  date : Int
  symbol : String
  type : TxType
  quantity : ℚ
  price : ℚ
  total : ℚ
  fees : ℚ
  deriving DecidableEq

/-- A portfolio valuation at one point in time, mirroring `PortfolioSnapshot`. -/
structure PortfolioSnapshot where
  date : Int
  totalValue : ℚ
  cashBalance : ℚ
  positions : List Position
  deriving DecidableEq

instance : Inhabited PortfolioSnapshot := ⟨⟨0, 0, 0, []⟩⟩

/-- JS division: `a / b` is a finite number exactly when `b ≠ 0`; the
`NaN`/`±Infinity` results of a zero denominator are modelled as `none`. -/
def jsDiv (a b : ℚ) : Option ℚ :=
  if b = 0 then none else some (a / b)

/-- JS array indexing `l[i]`, which yields `undefined` (here `none`) for a
negative index or an index past the end. -/
def jsIndex (l : List α) (i : Int) : Option α :=
  if i < 0 then none else l.get? i.toNat

/-- JS `x || d` on an optional number: `undefined`, `NaN` and `0` are falsy,
so the default is taken exactly when `x` is absent/undefined or zero. -/
def orFalsy (x : Option ℚ) (d : ℚ) : ℚ :=
  match x with
  | none => d
  | some v => if v = 0 then d else v

/-- Monadic map over `Option`: a list of JS numbers any one of which is
`NaN`/`Infinity` poisons every aggregate computed from the list. -/
def mapO (f : α → Option β) : List α → Option (List β)
  | [] => some []
  | a :: l =>
    match f a, mapO f l with
    | some b, some bs => some (b :: bs)
    | _, _ => none

/-! ## Allocation engine (`calculateSectorAllocations`, `calculateAssetAllocations`) -/

/-- A sector grouping row, mirroring the `SectorAllocation` interface; the
percentage is `none` when the source computes `NaN` (zero total value). -/
structure SectorAllocation where
  sector : String
  value : ℚ
  percentage : Option ℚ
  count : ℕ
  deriving DecidableEq

/-- An asset-type grouping row, mirroring the `AssetAllocation` interface. -/
structure AssetAllocation where
  assetType : String
  value : ℚ
  percentage : Option ℚ
  deriving DecidableEq

/-- `sectorMap.set(sector, {value: existing.value + mv, count: existing.count + 1})`:
update the first (unique) entry for the key, or append a fresh one, exactly as a
JS `Map` keeps first-insertion order. -/
def addSector (sector : String) (mv : ℚ) : List (String × ℚ × ℕ) → List (String × ℚ × ℕ)
  | [] => [(sector, mv, 1)]
  | (k, v, c) :: rest =>
    if k = sector then (k, v + mv, c + 1) :: rest
    else (k, v, c) :: addSector sector mv rest

/-- The `sectorMap` built by `calculateSectorAllocations`'s `forEach` loop. -/
def sectorGroups (positions : List Position) : List (String × ℚ × ℕ) :=
  positions.foldl (fun m p => addSector p.sector p.marketValue m) []

/-- Total portfolio market value, `positions.reduce((sum, p) => sum + p.marketValue, 0)`. -/
def totalMarketValue (positions : List Position) : ℚ :=
  (positions.map (·.marketValue)).sum

/-- `calculateSectorAllocations` from the source: group positions by sector,
compute each group's value, percentage of the total and member count, then
sort descending by value (stable sort). -/
def calculateSectorAllocations (positions : List Position) : List SectorAllocation :=
  let totalValue := totalMarketValue positions
  List.insertionSort (fun a b => b.value ≤ a.value)
    ((sectorGroups positions).map (fun g =>
      { sector := g.1
        value := g.2.1
        percentage := (jsDiv g.2.1 totalValue).map (· * 100)
        count := g.2.2 }))

/-- `assetMap.set(assetType, existing + mv)`: the asset-type grouping fold. -/
def addAsset (assetType : String) (mv : ℚ) : List (String × ℚ) → List (String × ℚ)
  | [] => [(assetType, mv)]
  | (k, v) :: rest =>
    if k = assetType then (k, v + mv) :: rest
    else (k, v) :: addAsset assetType mv rest

/-- The `assetMap` built by `calculateAssetAllocations`'s `forEach` loop. -/
def assetGroups (positions : List Position) : List (String × ℚ) :=
  positions.foldl (fun m p => addAsset p.assetType p.marketValue m) []

/-- `calculateAssetAllocations` from the source. -/
def calculateAssetAllocations (positions : List Position) : List AssetAllocation :=
  let totalValue := totalMarketValue positions
  List.insertionSort (fun a b => b.value ≤ a.value)
    ((assetGroups positions).map (fun g =>
      { assetType := g.1
        value := g.2
        percentage := (jsDiv g.2 totalValue).map (· * 100) }))

/-! ## Metrics engine (`calculateMockMetrics`)

Each local constant of the source function becomes a top-level definition so
the record fields below are exactly those computations.  The function is
parameterised by `yearStart` (the source reads the current calendar year from
the wall clock for the YTD window). -/

/-- The performance report, mirroring the `PerformanceMetrics` interface.
Fields the source can compute as `NaN`/`Infinity` are `Option`-valued. -/
structure PerformanceMetrics where
  totalReturn : ℚ
  totalReturnPercent : Option ℚ
  dailyReturn : ℚ
  dailyReturnPercent : Option ℚ
  monthlyReturn : ℚ
  monthlyReturnPercent : Option ℚ
  ytdReturn : ℚ
  ytdReturnPercent : Option ℚ
  volatility : Option ℝ
  sharpeRatio : Option ℝ
  maxDrawdown : ℚ
  beta : ℚ

/-- `currentValue = positions.reduce((sum, p) => sum + p.marketValue, 0)`. -/
def currentValue (positions : List Position) : ℚ :=
  (positions.map (·.marketValue)).sum

/-- `totalCost = positions.reduce((sum, p) => sum + p.costBasis * p.quantity, 0)`. -/
def totalCost (positions : List Position) : ℚ :=
  (positions.map (fun p => p.costBasis * p.quantity)).sum

/-- `totalReturn = currentValue - totalCost`. -/
def totalReturn (positions : List Position) : ℚ :=
  currentValue positions - totalCost positions

/-- `totalReturnPercent = (totalReturn / totalCost) * 100` (`NaN`/`±∞` when
the aggregate cost is zero). -/
def totalReturnPercent (positions : List Position) : Option ℚ :=
  (jsDiv (totalReturn positions) (totalCost positions)).map (· * 100)

/-- `yesterdayValue = snapshots[snapshots.length - 2]?.totalValue || currentValue`. -/
def yesterdayValue (positions : List Position) (snapshots : List PortfolioSnapshot) : ℚ :=
  orFalsy ((jsIndex snapshots ((snapshots.length : Int) - 2)).map (·.totalValue))
    (currentValue positions)

/-- `dailyReturn = currentValue - yesterdayValue`. -/
def dailyReturn (positions : List Position) (snapshots : List PortfolioSnapshot) : ℚ :=
  currentValue positions - yesterdayValue positions snapshots

/-- `dailyReturnPercent = (dailyReturn / yesterdayValue) * 100`. -/
def dailyReturnPercent (positions : List Position) (snapshots : List PortfolioSnapshot) :
    Option ℚ :=
  (jsDiv (dailyReturn positions snapshots) (yesterdayValue positions snapshots)).map (· * 100)

/-- `monthAgoValue = snapshots[snapshots.length - 30]?.totalValue || currentValue`. -/
def monthAgoValue (positions : List Position) (snapshots : List PortfolioSnapshot) : ℚ :=
  orFalsy ((jsIndex snapshots ((snapshots.length : Int) - 30)).map (·.totalValue))
    (currentValue positions)

/-- `monthlyReturn = currentValue - monthAgoValue`. -/
def monthlyReturn (positions : List Position) (snapshots : List PortfolioSnapshot) : ℚ :=
  currentValue positions - monthAgoValue positions snapshots

/-- `monthlyReturnPercent = (monthlyReturn / monthAgoValue) * 100`. -/
def monthlyReturnPercent (positions : List Position) (snapshots : List PortfolioSnapshot) :
    Option ℚ :=
  (jsDiv (monthlyReturn positions snapshots) (monthAgoValue positions snapshots)).map (· * 100)

/-- `ytdSnapshot = snapshots.find(s => s.date >= yearStart) || snapshots[0]`;
only called with a non-empty series (`s0` is its head). -/
def ytdSnapshot (yearStart : Int) (s0 : PortfolioSnapshot)
    (snapshots : List PortfolioSnapshot) : PortfolioSnapshot :=
  (snapshots.find? (fun s => yearStart ≤ s.date)).getD s0

/-- `ytdReturn = currentValue - ytdSnapshot.totalValue`. -/
def ytdReturn (yearStart : Int) (positions : List Position) (s0 : PortfolioSnapshot)
    (snapshots : List PortfolioSnapshot) : ℚ :=
  currentValue positions - (ytdSnapshot yearStart s0 snapshots).totalValue

/-- `dailyReturns = snapshots.slice(1).map((s, idx) => (s.totalValue -
snapshots[idx].totalValue) / snapshots[idx].totalValue)`: per-period fractional
returns of consecutive snapshot pairs.  A zero denominator makes the whole
list `none` (in JS the `NaN`/`±∞` entry poisons the mean and variance). -/
def dailyReturns (snapshots : List PortfolioSnapshot) : Option (List ℚ) :=
  mapO (fun pc => jsDiv (pc.2.totalValue - pc.1.totalValue) pc.1.totalValue)
    (snapshots.zip snapshots.tail)

/-- `avgReturn = dailyReturns.reduce((sum, r) => sum + r, 0) / dailyReturns.length`
(`0/0 = NaN` when no return is available). -/
def avgReturn (snapshots : List PortfolioSnapshot) : Option ℚ :=
  (dailyReturns snapshots).bind (fun rs => jsDiv rs.sum rs.length)

/-- `variance = dailyReturns.reduce((sum, r) => sum + (r - avgReturn)^2, 0) /
dailyReturns.length` (the population variance, dividing by `N`). -/
def variance (snapshots : List PortfolioSnapshot) : Option ℚ :=
  (dailyReturns snapshots).bind (fun rs =>
    (avgReturn snapshots).bind (fun avg =>
      jsDiv ((rs.map (fun r => (r - avg) ^ 2)).sum) rs.length))

/-- `volatility = Math.sqrt(variance * 252) * 100` (annualized, as a percent). -/
noncomputable def volatility (snapshots : List PortfolioSnapshot) : Option ℝ :=
  (variance snapshots).map (fun v : ℚ => Real.sqrt ((v : ℝ) * 252) * 100)

/-- `riskFreeRate = 0.04`. -/
def riskFreeRate : ℚ := 4 / 100

/-- JS division over the reals (for the Sharpe-ratio step, whose numerator and
denominator already involve the volatility square root). -/
noncomputable def jsDivR (a b : ℝ) : Option ℝ :=
  if b = 0 then none else some (a / b)

/-- `excessReturn = totalReturnPercent / 100 - riskFreeRate`. -/
def excessReturn (positions : List Position) : Option ℚ :=
  (totalReturnPercent positions).map (fun trp => trp / 100 - riskFreeRate)

/-- `sharpeRatio = excessReturn / (volatility / 100)`: `NaN` operands
propagate, and a zero volatility gives `±Infinity` (modelled `none`). -/
noncomputable def sharpeRatio (positions : List Position)
    (snapshots : List PortfolioSnapshot) : Option ℝ :=
  (excessReturn positions).bind (fun e : ℚ =>
    (volatility snapshots).bind (fun vol : ℝ => jsDivR (e : ℝ) (vol / 100)))

/-- One step of the max-drawdown `forEach` loop: the state is
`(peak, maxDrawdown)`.  When `peak` is zero the source's drawdown is not a
finite number (`NaN` for a zero value, where `NaN > maxDrawdown` is false and
the accumulator keeps its value — the case modelled here; a zero peak with a
negative value, which every claim about this loop excludes, is conflated with
it by the `Option` model). -/
def ddStep (st : ℚ × ℚ) (v : ℚ) : ℚ × ℚ :=
  let peak := if st.1 < v then v else st.1
  match jsDiv (peak - v) peak with
  | some d => (peak, if st.2 < d * 100 then d * 100 else st.2)
  | none => (peak, st.2)

/-- The max-drawdown loop of the source: `peak` starts at
`snapshots[0].totalValue` and the loop runs over every snapshot. -/
def maxDrawdown (s0 : PortfolioSnapshot) (snapshots : List PortfolioSnapshot) : ℚ :=
  ((snapshots.map (·.totalValue)).foldl ddStep (s0.totalValue, 0)).2

/-- `calculateMockMetrics` from the source.  The only JS expression that can
throw is `snapshots[0].totalValue` (and the `ytdSnapshot` fallback) on an
empty series — a runtime `TypeError`, modelled as `none`; every other path
produces a report (with `NaN`/`Infinity` fields modelled as `none` inside). -/
noncomputable def calculateMockMetrics (positions : List Position)
    (snapshots : List PortfolioSnapshot) (yearStart : Int) :
    Option PerformanceMetrics :=
  match snapshots with
  | [] => none
  | s0 :: _ =>
    some
      { totalReturn := totalReturn positions
        totalReturnPercent := totalReturnPercent positions
        dailyReturn := dailyReturn positions snapshots
        dailyReturnPercent := dailyReturnPercent positions snapshots
        monthlyReturn := monthlyReturn positions snapshots
        monthlyReturnPercent := monthlyReturnPercent positions snapshots
        ytdReturn := ytdReturn yearStart positions s0 snapshots
        ytdReturnPercent :=
          (jsDiv (ytdReturn yearStart positions s0 snapshots)
            (ytdSnapshot yearStart s0 snapshots).totalValue).map (· * 100)
        volatility := volatility snapshots
        sharpeRatio := sharpeRatio positions snapshots
        maxDrawdown := maxDrawdown s0 snapshots
        beta := 19 / 20 }

/-! ## Snapshot generator (`generateMockHistoricalSnapshots`) -/

/-- `generateMockHistoricalSnapshots` from the source.  The loop runs `i`
from `daysBack = 365` down to `0`; writing `k = daysBack - i` for the day
index, the random growth factor of the day
(`1 + (daysBack - i) * 0.0003 + (Math.random() - 0.5) * 0.02`) is supplied as
the injectable sequence `growth k`, and the random cash balance
(`5000 + Math.random() * 2000`) as `cash k`.  Each snapshot divides today's
aggregate value and every position's price/market value by the same factor. -/
def generateMockHistoricalSnapshots (positions : List Position)
    (growth : ℕ → ℚ) (cash : ℕ → ℚ) : List PortfolioSnapshot :=
  let totalValue := (positions.map (·.marketValue)).sum
  (List.range (365 + 1)).map (fun k =>
    { date := Int.ofNat k - 365
      totalValue := totalValue / growth k
      cashBalance := cash k
      positions := positions.map (fun p =>
        { p with
          currentPrice := p.currentPrice / growth k
          marketValue := p.marketValue / growth k }) })

/-! ## Transaction analytics (transactions page) -/

/-- `symbolVolume[t.symbol] += t.total`: plain-object accumulation, which in
JS preserves first-insertion key order. -/
def addVolume (symbol : String) (amount : ℚ) : List (String × ℚ) → List (String × ℚ)
  | [] => [(symbol, amount)]
  | (k, v) :: rest =>
    if k = symbol then (k, v + amount) :: rest
    else (k, v) :: addVolume symbol amount rest

/-- The `symbolVolume` record built by `transactions.reduce(...)`. -/
def symbolVolume (transactions : List Transaction) : List (String × ℚ) :=
  transactions.foldl (fun m t => addVolume t.symbol t.total m) []

/-- `Object.entries(symbolVolume).map(...).sort((a, b) => b.total - a.total)
.slice(0, n)`: the per-symbol volume ranking.  The source instantiates the
rank size at `5`; it is kept as the parameter `n` of the spec's contract. -/
def topTraded (transactions : List Transaction) (n : ℕ) : List (String × ℚ) :=
  (List.insertionSort (fun a b => b.2 ≤ a.2) (symbolVolume transactions)).take n

/-- `topTradedStocks` as the source instantiates it (`slice(0, 5)`). -/
def topTradedStocks (transactions : List Transaction) : List (String × ℚ) :=
  topTraded transactions 5

/-- The filter state of the transactions page: `none` models the `'all'`
selections and the empty string / empty date inputs are the absent filters. -/
structure TxFilter where
  filterType : Option TxType
  filterSymbol : Option String
  searchQuery : String
  dateFrom : Option Int
  dateTo : Option Int

/-- The filter state with every control cleared (`'all'`, `''`). -/
def emptyFilter : TxFilter := ⟨none, none, "", none, none⟩

/-- Case-insensitive substring test, `a.toLowerCase().includes(b.toLowerCase())`. -/
def containsCI (s q : String) : Bool :=
  decide (q.toLower.toList <:+: s.toLower.toList)

/-- `matchesType = filterType === 'all' || transaction.type === filterType`. -/
def matchesType (f : TxFilter) (t : Transaction) : Bool :=
  f.filterType = none || f.filterType = some t.type

/-- `matchesSymbol = filterSymbol === 'all' || transaction.symbol === filterSymbol`. -/
def matchesSymbol (f : TxFilter) (t : Transaction) : Bool :=
  f.filterSymbol = none || f.filterSymbol = some t.symbol

/-- `matchesSearch = searchQuery === '' || symbol.toLowerCase().includes(q) ||
id.toLowerCase().includes(q)` (with `q` lower-cased). -/
def matchesSearch (f : TxFilter) (t : Transaction) : Bool :=
  f.searchQuery = "" || containsCI t.symbol f.searchQuery || containsCI t.id f.searchQuery

/-- `matchesDateFrom = dateFrom === '' || transactionDate >= new Date(dateFrom)`. -/
def matchesDateFrom (f : TxFilter) (t : Transaction) : Bool :=
  match f.dateFrom with
  | none => true
  | some d => d ≤ t.date

/-- `matchesDateTo = dateTo === '' || transactionDate <= new Date(dateTo)`. -/
def matchesDateTo (f : TxFilter) (t : Transaction) : Bool :=
  match f.dateTo with
  | none => true
  | some d => t.date ≤ d

/-- The conjunction returned by the filter callback of the source. -/
def matchesTx (f : TxFilter) (t : Transaction) : Bool :=
  matchesType f t && matchesSymbol f t && matchesSearch f t &&
    matchesDateFrom f t && matchesDateTo f t

/-- `filteredTransactions = transactions.filter(transaction => ...)`. -/
def filteredTransactions (f : TxFilter) (transactions : List Transaction) :
    List Transaction :=
  transactions.filter (matchesTx f)

/-! ## Helper lemmas -/

/-- Dividing every summand by a common `c` divides the sum (also for `c = 0`,
where both sides vanish). -/
lemma sum_map_div (l : List ℚ) (c : ℚ) : (l.map (· / c)).sum = l.sum / c := by
  induction l with
  | nil => simp
  | cons a l ih => simp [ih, add_div]

/-- `addSector` adds exactly the new market value to the aggregate of the
grouped values. -/
lemma addSector_valueSum (s : String) (v : ℚ) (m : List (String × ℚ × ℕ)) :
    ((addSector s v m).map (fun g => g.2.1)).sum = (m.map (fun g => g.2.1)).sum + v := by
  induction m with
  | nil => simp [addSector]
  | cons g rest ih =>
    obtain ⟨k, w, c⟩ := g
    by_cases hk : k = s
    · simp [addSector, hk]
      ring
    · simp [addSector, hk, ih]
      ring

/-- The sector grouping fold is conservative: the grouped values sum to the
total market value of the positions (for any starting accumulator). -/
lemma sectorGroups_valueSum_aux (ps : List Position) :
    ∀ m : List (String × ℚ × ℕ),
      ((ps.foldl (fun m p => addSector p.sector p.marketValue m) m).map
          (fun g => g.2.1)).sum
        = (m.map (fun g => g.2.1)).sum + (ps.map (·.marketValue)).sum := by
  induction ps with
  | nil => intro m; simp
  | cons p ps ih =>
    intro m
    simp only [List.foldl_cons, List.map_cons, List.sum_cons]
    rw [ih, addSector_valueSum]
    ring

/-- The grouped sector values sum to the total market value. -/
lemma sectorGroups_valueSum (ps : List Position) :
    ((sectorGroups ps).map (fun g => g.2.1)).sum = (ps.map (·.marketValue)).sum := by
  simpa using sectorGroups_valueSum_aux ps []

/-! ## Claims about the snapshot generator and the allocation engine -/

/-- C10: every snapshot produced by `generateMockHistoricalSnapshots`
satisfies the internal consistency invariant `totalValue = Σ marketValue`
over its own (day-rescaled) position list, for every input position set and
every injected growth/cash sequence. -/
theorem generateMockHistoricalSnapshots_consistent (positions : List Position)
    (growth cash : ℕ → ℚ) (snap : PortfolioSnapshot)
    (hmem : snap ∈ generateMockHistoricalSnapshots positions growth cash) :
    snap.totalValue = (snap.positions.map (·.marketValue)).sum := by
  simp only [generateMockHistoricalSnapshots, List.mem_map, List.mem_range] at hmem
  obtain ⟨k, -, rfl⟩ := hmem
  show (positions.map (·.marketValue)).sum / growth k = _
  rw [← sum_map_div (positions.map (·.marketValue)) (growth k), List.map_map, List.map_map]
  rfl

/-- Witness for C10 at the empty position set (constant growth 1), taken at
the first generated snapshot. -/
theorem generateMockHistoricalSnapshots_consistent_witness :
    ((generateMockHistoricalSnapshots [] (fun _ => 1) (fun _ => 0)).head
        (by simp [generateMockHistoricalSnapshots])).totalValue =
      (((generateMockHistoricalSnapshots [] (fun _ => 1) (fun _ => 0)).head
          (by simp [generateMockHistoricalSnapshots])).positions.map
        (·.marketValue)).sum :=
  generateMockHistoricalSnapshots_consistent [] (fun _ => 1) (fun _ => 0) _
    (List.head_mem _)

/-- C9: filtering with all controls cleared is the identity; any filtered
result is a subsequence of the input in the original order; and membership in
the result is exactly membership in the input conjoined with the five
AND-combined predicates (type, symbol, case-insensitive text query over
symbol/id substrings, and the two date bounds). -/
theorem filteredTransactions_spec :
    (∀ txns, filteredTransactions emptyFilter txns = txns) ∧
    (∀ f txns, (filteredTransactions f txns).Sublist txns) ∧
    (∀ f txns t, t ∈ filteredTransactions f txns ↔
      t ∈ txns ∧ matchesType f t ∧ matchesSymbol f t ∧ matchesSearch f t ∧
        matchesDateFrom f t ∧ matchesDateTo f t) := by
  refine ⟨?_, ?_, ?_⟩
  · intro txns
    apply List.filter_eq_self.mpr
    intro a _
    rfl
  · intro f txns
    exact List.filter_sublist _
  · intro f txns t
    simp [filteredTransactions, List.mem_filter, matchesTx, and_assoc]

/-- C8: for every non-empty position set, the sector allocation's per-group
values sum to the total market value of the input positions (the grouping is
conservative). -/
theorem sectorAllocations_value_sum (ps : List Position) (hne : ps ≠ []) :
    ((calculateSectorAllocations ps).map (·.value)).sum
      = (ps.map (·.marketValue)).sum := by
  clear hne
  have hperm : (calculateSectorAllocations ps).Perm
      ((sectorGroups ps).map (fun g =>
        ({ sector := g.1, value := g.2.1,
           percentage := (jsDiv g.2.1 (totalMarketValue ps)).map (· * 100),
           count := g.2.2 } : SectorAllocation))) :=
    List.perm_insertionSort _ _
  rw [(hperm.map (·.value)).sum_eq, List.map_map]
  simpa [Function.comp] using sectorGroups_valueSum ps

/-- Witness for C8 at a concrete two-sector portfolio. -/
theorem sectorAllocations_value_sum_witness :
    ((calculateSectorAllocations
        [{ symbol := "AAPL", name := "Apple", quantity := 1, costBasis := 100,
           currentPrice := 110, marketValue := 110, gainLoss := 10,
           gainLossPercent := 10, sector := "Technology", assetType := "stock" },
         { symbol := "JPM", name := "JPMorgan", quantity := 2, costBasis := 50,
           currentPrice := 45, marketValue := 90, gainLoss := -10,
           gainLossPercent := -10, sector := "Financial Services",
           assetType := "stock" }]).map (·.value)).sum
      = (([{ symbol := "AAPL", name := "Apple", quantity := 1, costBasis := 100,
             currentPrice := 110, marketValue := 110, gainLoss := 10,
             gainLossPercent := 10, sector := "Technology", assetType := "stock" },
           { symbol := "JPM", name := "JPMorgan", quantity := 2, costBasis := 50,
             currentPrice := 45, marketValue := 90, gainLoss := -10,
             gainLossPercent := -10, sector := "Financial Services",
             assetType := "stock" }] : List Position).map (·.marketValue)).sum :=
  sectorAllocations_value_sum _ (by decide)

/-- `addAsset` adds exactly the new market value to the aggregate of the
grouped values. -/
lemma addAsset_valueSum (s : String) (v : ℚ) (m : List (String × ℚ)) :
    ((addAsset s v m).map (·.2)).sum = (m.map (·.2)).sum + v := by
  induction m with
  | nil => simp [addAsset]
  | cons g rest ih =>
    obtain ⟨k, w⟩ := g
    by_cases hk : k = s
    · simp [addAsset, hk]
      ring
    · simp [addAsset, hk, ih]
      ring

/-- The asset-type grouping fold is conservative (any starting accumulator). -/
lemma assetGroups_valueSum_aux (ps : List Position) :
    ∀ m : List (String × ℚ),
      ((ps.foldl (fun m p => addAsset p.assetType p.marketValue m) m).map (·.2)).sum
        = (m.map (·.2)).sum + (ps.map (·.marketValue)).sum := by
  induction ps with
  | nil => intro m; simp
  | cons p ps ih =>
    intro m
    simp only [List.foldl_cons, List.map_cons, List.sum_cons]
    rw [ih, addAsset_valueSum]
    ring

/-- The grouped asset-type values sum to the total market value. -/
lemma assetGroups_valueSum (ps : List Position) :
    ((assetGroups ps).map (·.2)).sum = (ps.map (·.marketValue)).sum := by
  simpa using assetGroups_valueSum_aux ps []

/-- Summing `v / T * 100` over a list factors through the sum. -/
lemma sum_map_div_mul (l : List ℚ) (T : ℚ) :
    (l.map (fun v => v / T * 100)).sum = l.sum / T * 100 := by
  induction l with
  | nil => simp
  | cons a l ih =>
    simp only [List.map_cons, List.sum_cons, ih, add_div, add_mul]

/-- C3 (corrected): when the total portfolio market value is zero every
percentage computed by both allocation groupings is the `NaN` of the source's
unguarded division (`none`), not `0`; when the total is positive the
percentages of each grouping sum to exactly `100`. -/
theorem allocations_percentage_spec (ps : List Position) :
    (totalMarketValue ps = 0 →
      (∀ a ∈ calculateSectorAllocations ps, a.percentage = none) ∧
      (∀ a ∈ calculateAssetAllocations ps, a.percentage = none)) ∧
    (0 < totalMarketValue ps →
      ((calculateSectorAllocations ps).map (fun a => a.percentage.getD 0)).sum = 100 ∧
      ((calculateAssetAllocations ps).map (fun a => a.percentage.getD 0)).sum = 100) := by
  have hsperm : (calculateSectorAllocations ps).Perm
      ((sectorGroups ps).map (fun g =>
        ({ sector := g.1, value := g.2.1,
           percentage := (jsDiv g.2.1 (totalMarketValue ps)).map (· * 100),
           count := g.2.2 } : SectorAllocation))) :=
    List.perm_insertionSort _ _
  have haperm : (calculateAssetAllocations ps).Perm
      ((assetGroups ps).map (fun g =>
        ({ assetType := g.1, value := g.2,
           percentage := (jsDiv g.2 (totalMarketValue ps)).map (· * 100) } :
          AssetAllocation))) :=
    List.perm_insertionSort _ _
  constructor
  · intro h0
    constructor
    · intro a ha
      rcases List.mem_map.mp (hsperm.mem_iff.mp ha) with ⟨g, -, rfl⟩
      simp [jsDiv, h0]
    · intro a ha
      rcases List.mem_map.mp (haperm.mem_iff.mp ha) with ⟨g, -, rfl⟩
      simp [jsDiv, h0]
  · intro hpos
    have hT : totalMarketValue ps ≠ 0 := ne_of_gt hpos
    constructor
    · rw [(hsperm.map (fun a => a.percentage.getD 0)).sum_eq, List.map_map]
      have : ((fun a : SectorAllocation => a.percentage.getD 0) ∘ fun g : String × ℚ × ℕ =>
          ({ sector := g.1, value := g.2.1,
             percentage := (jsDiv g.2.1 (totalMarketValue ps)).map (· * 100),
             count := g.2.2 } : SectorAllocation))
          = fun g : String × ℚ × ℕ => g.2.1 / totalMarketValue ps * 100 := by
        funext g
        simp [jsDiv, hT]
      rw [this, show (fun g : String × ℚ × ℕ => g.2.1 / totalMarketValue ps * 100)
          = (fun v : ℚ => v / totalMarketValue ps * 100) ∘ (fun g : String × ℚ × ℕ => g.2.1)
          from rfl, ← List.map_map, sum_map_div_mul, sectorGroups_valueSum]
      rw [show (ps.map (·.marketValue)).sum = totalMarketValue ps from rfl,
        div_self hT, one_mul]
    · rw [(haperm.map (fun a => a.percentage.getD 0)).sum_eq, List.map_map]
      have : ((fun a : AssetAllocation => a.percentage.getD 0) ∘ fun g : String × ℚ =>
          ({ assetType := g.1, value := g.2,
             percentage := (jsDiv g.2 (totalMarketValue ps)).map (· * 100) } :
            AssetAllocation))
          = fun g : String × ℚ => g.2 / totalMarketValue ps * 100 := by
        funext g
        simp [jsDiv, hT]
      rw [this, show (fun g : String × ℚ => g.2 / totalMarketValue ps * 100)
          = (fun v : ℚ => v / totalMarketValue ps * 100) ∘ (fun g : String × ℚ => g.2)
          from rfl, ← List.map_map, sum_map_div_mul, assetGroups_valueSum]
      rw [show (ps.map (·.marketValue)).sum = totalMarketValue ps from rfl,
        div_self hT, one_mul]

/-- A position whose market value is zero (the portfolio total is then zero). -/
def zeroValuePosition : Position :=
  { symbol := "ZERO", name := "Zero Corp", quantity := 1, costBasis := 1,
    currentPrice := 0, marketValue := 0, gainLoss := -1, gainLossPercent := -100,
    sector := "Technology", assetType := "stock" }

/-- Counterexample to C3 as stated: with a zero total market value the source
divides by zero, so the group percentages are `NaN` (`none`), not `0`. -/
theorem allocations_percentage_counterexample :
    ((calculateSectorAllocations [zeroValuePosition]).map (·.percentage) = [none] ∧
      (calculateAssetAllocations [zeroValuePosition]).map (·.percentage) = [none]) ∧
    (calculateSectorAllocations [zeroValuePosition]).map (·.percentage) ≠ [some 0] := by
  have h1 : (calculateSectorAllocations [zeroValuePosition]).map (·.percentage)
      = [none] := by
    norm_num [calculateSectorAllocations, sectorGroups, addSector, totalMarketValue,
      zeroValuePosition, jsDiv, List.insertionSort, List.orderedInsert]
  have h2 : (calculateAssetAllocations [zeroValuePosition]).map (·.percentage)
      = [none] := by
    norm_num [calculateAssetAllocations, assetGroups, addAsset, totalMarketValue,
      zeroValuePosition, jsDiv, List.insertionSort, List.orderedInsert]
  exact ⟨⟨h1, h2⟩, by rw [h1]; simp⟩

/-- Witness for C3 at a concrete positive-total portfolio. -/
theorem allocations_percentage_witness :
    ((calculateSectorAllocations
        [{ symbol := "MSFT", name := "Microsoft", quantity := 1, costBasis := 100,
           currentPrice := 150, marketValue := 150, gainLoss := 50,
           gainLossPercent := 50, sector := "Technology", assetType := "stock" },
         { symbol := "SPY", name := "SPDR", quantity := 1, costBasis := 40,
           currentPrice := 50, marketValue := 50, gainLoss := 10,
           gainLossPercent := 25, sector := "Diversified", assetType := "etf" }]).map
        (fun a => a.percentage.getD 0)).sum = 100 ∧
    ((calculateAssetAllocations
        [{ symbol := "MSFT", name := "Microsoft", quantity := 1, costBasis := 100,
           currentPrice := 150, marketValue := 150, gainLoss := 50,
           gainLossPercent := 50, sector := "Technology", assetType := "stock" },
         { symbol := "SPY", name := "SPDR", quantity := 1, costBasis := 40,
           currentPrice := 50, marketValue := 50, gainLoss := 10,
           gainLossPercent := 25, sector := "Diversified", assetType := "etf" }]).map
        (fun a => a.percentage.getD 0)).sum = 100 :=
  (allocations_percentage_spec _).2 (by norm_num [totalMarketValue])

/-! ## Top-traded ranking (C7) -/

/-- The total traded amount of one symbol: the sum of the `total` field over
all its transactions, regardless of buy/sell direction. -/
def symbolTotal (txns : List Transaction) (s : String) : ℚ :=
  ((txns.filter (fun t => t.symbol = s)).map (·.total)).sum

lemma symbolTotal_nil (s : String) : symbolTotal [] s = 0 := rfl

lemma symbolTotal_cons (t : Transaction) (rest : List Transaction) (s : String) :
    symbolTotal (t :: rest) s
      = (if t.symbol = s then t.total else 0) + symbolTotal rest s := by
  by_cases h : t.symbol = s <;> simp [symbolTotal, List.filter_cons, h]

/-- First-match lookup in an association list (the JS object read). -/
def lookupQ (k : String) : List (String × ℚ) → Option ℚ
  | [] => none
  | (a, b) :: rest => if a = k then some b else lookupQ k rest

/-- `lookupQ` after an `addVolume` update. -/
lemma addVolume_lookup (s : String) (v : ℚ) (m : List (String × ℚ)) (k : String) :
    lookupQ k (addVolume s v m) =
      if k = s then some ((lookupQ s m).getD 0 + v) else lookupQ k m := by
  induction m with
  | nil =>
    by_cases hk : k = s
    · simp [addVolume, lookupQ, hk]
    · simp [addVolume, lookupQ, hk, Ne.symm hk]
  | cons g rest ih =>
    obtain ⟨a, b⟩ := g
    by_cases ha : a = s
    · subst ha
      by_cases hk : k = a
      · simp [addVolume, lookupQ, hk]
      · simp [addVolume, lookupQ, hk, Ne.symm hk]
    · by_cases hk : a = k
      · subst hk
        simp [addVolume, lookupQ, ha, Ne.symm ha]
      · simp [addVolume, lookupQ, ha, hk, ih]

/-- Keys present after an `addVolume` update. -/
lemma addVolume_keys (s : String) (v : ℚ) (m : List (String × ℚ)) (k : String) :
    k ∈ (addVolume s v m).map (·.1) ↔ k ∈ m.map (·.1) ∨ k = s := by
  induction m with
  | nil => simp [addVolume]
  | cons g rest ih =>
    obtain ⟨a, b⟩ := g
    by_cases ha : a = s
    · subst ha
      by_cases hk : k = a <;> simp [addVolume, hk]
    · simp [addVolume, ha, ih, or_assoc]

/-- `addVolume` keeps the keys duplicate-free. -/
lemma addVolume_keys_nodup (s : String) (v : ℚ) (m : List (String × ℚ))
    (h : (m.map (·.1)).Nodup) : ((addVolume s v m).map (·.1)).Nodup := by
  induction m with
  | nil => simp [addVolume]
  | cons g rest ih =>
    obtain ⟨a, b⟩ := g
    simp only [List.map_cons, List.nodup_cons] at h
    by_cases ha : a = s
    · subst ha
      simpa [addVolume] using h
    · simp only [addVolume, ha, if_false, List.map_cons, List.nodup_cons]
      exact ⟨fun hmem => (addVolume_keys s v rest a).mp hmem |>.elim h.1 ha,
        ih h.2⟩

/-- `lookupQ` finds a value exactly at the present keys. -/
lemma lookupQ_isSome_iff (m : List (String × ℚ)) (k : String) :
    (lookupQ k m).isSome ↔ k ∈ m.map (·.1) := by
  induction m with
  | nil => simp [lookupQ]
  | cons g rest ih =>
    obtain ⟨a, b⟩ := g
    by_cases ha : a = k
    · simp [lookupQ, ha]
    · simp [lookupQ, ha, ih, Ne.symm ha]

/-- What the volume-accumulation fold holds at any key, for any starting
accumulator. -/
lemma symbolVolume_foldl_lookup (txns : List Transaction) :
    ∀ (m : List (String × ℚ)) (k : String),
      lookupQ k (txns.foldl (fun m t => addVolume t.symbol t.total m) m) =
        if k ∈ m.map (·.1) ∨ k ∈ txns.map (·.symbol)
        then some ((lookupQ k m).getD 0 + symbolTotal txns k)
        else none := by
  induction txns with
  | nil =>
    intro m k
    by_cases hk : k ∈ m.map (·.1)
    · obtain ⟨w, hw⟩ := Option.isSome_iff_exists.mp ((lookupQ_isSome_iff m k).mpr hk)
      simp [hk, hw, symbolTotal_nil]
    · have : lookupQ k m = none :=
        Option.not_isSome_iff_eq_none.mp (fun h => hk ((lookupQ_isSome_iff m k).mp h))
      simp [hk, this]
  | cons t rest ih =>
    intro m k
    simp only [List.foldl_cons, List.map_cons, List.mem_cons]
    rw [ih, addVolume_lookup, symbolTotal_cons]
    simp only [addVolume_keys]
    by_cases hk : k = t.symbol
    · subst hk
      simp [add_assoc]
    · simp only [hk, if_false, or_assoc, zero_add,
        show (t.symbol = k) = False from eq_false fun h => hk h.symm, ite_false]

/-- The accumulated per-symbol volume record: lookup is the per-symbol total. -/
lemma symbolVolume_lookup (txns : List Transaction) (k : String) :
    lookupQ k (symbolVolume txns) =
      if k ∈ txns.map (·.symbol) then some (symbolTotal txns k) else none := by
  simpa [lookupQ] using symbolVolume_foldl_lookup txns [] k

/-- The keys of the per-symbol volume record are duplicate-free. -/
lemma symbolVolume_keys_nodup (txns : List Transaction) :
    ((symbolVolume txns).map (·.1)).Nodup := by
  have : ∀ m : List (String × ℚ), (m.map (·.1)).Nodup →
      (((txns.foldl (fun m t => addVolume t.symbol t.total m) m)).map (·.1)).Nodup := by
    induction txns with
    | nil => exact fun m h => h
    | cons t rest ih =>
      intro m h
      exact ih _ (addVolume_keys_nodup _ _ _ h)
  simpa [symbolVolume] using this [] (by simp)

/-- In a list with duplicate-free keys, every member is what `lookupQ` finds. -/
lemma lookup_of_mem_of_nodupKeys (m : List (String × ℚ))
    (h : (m.map (·.1)).Nodup) (p : String × ℚ) (hp : p ∈ m) :
    lookupQ p.1 m = some p.2 := by
  induction m with
  | nil => cases hp
  | cons g rest ih =>
    simp only [List.map_cons, List.nodup_cons] at h
    rcases List.mem_cons.mp hp with rfl | hp
    · simp [lookupQ]
    · have hne : g.1 ≠ p.1 := by
        intro he
        exact h.1 (he ▸ List.mem_map.mpr ⟨p, hp, rfl⟩)
      simpa [lookupQ, hne] using ih h.2 hp

/-- A `Nodup` list contained in another list is no longer than the other
list's list of distinct elements. -/
lemma nodup_length_le_dedup {l1 l2 : List String} (hn : l1.Nodup) (h : l1 ⊆ l2) :
    l1.length ≤ l2.dedup.length := by
  rw [← List.toFinset_card_of_nodup hn, ← List.card_toFinset]
  apply Finset.card_le_card
  intro a ha
  simp only [List.mem_toFinset] at ha ⊢
  exact h ha

/-- C7 (corrected): the ranking has length at most `n` and at most the number
of distinct symbols, is sorted non-increasing by volume, and each entry's
volume is the sum of the `total` field over that symbol's transactions
regardless of direction.  (Ties are kept in first-occurrence order by the
stable sort — not symbol lexical order; see the counterexample.) -/
theorem topTraded_spec (txns : List Transaction) (n : ℕ) :
    (topTraded txns n).length ≤ n ∧
    (topTraded txns n).length ≤ ((txns.map (·.symbol)).dedup).length ∧
    (topTraded txns n).Pairwise (fun a b => b.2 ≤ a.2) ∧
    ∀ p ∈ topTraded txns n, p.2 = symbolTotal txns p.1 := by
  haveI htot : IsTotal (String × ℚ) (fun a b => b.2 ≤ a.2) :=
    ⟨fun a b => le_total b.2 a.2⟩
  haveI htrans : IsTrans (String × ℚ) (fun a b => b.2 ≤ a.2) :=
    ⟨fun _ _ _ h1 h2 => le_trans h2 h1⟩
  have hperm : (List.insertionSort (fun a b => b.2 ≤ a.2) (symbolVolume txns)).Perm
      (symbolVolume txns) := List.perm_insertionSort _ _
  refine ⟨List.length_take_le n _, ?_, ?_, ?_⟩
  · calc (topTraded txns n).length
        ≤ (List.insertionSort (fun a b => b.2 ≤ a.2) (symbolVolume txns)).length :=
          List.length_take_le' n _
      _ = (symbolVolume txns).length := hperm.length_eq
      _ = ((symbolVolume txns).map (·.1)).length := (List.length_map _ _).symm
      _ ≤ ((txns.map (·.symbol)).dedup).length := by
          apply nodup_length_le_dedup (symbolVolume_keys_nodup txns)
          intro k hk
          have hsome := (lookupQ_isSome_iff (symbolVolume txns) k).mpr hk
          by_contra hmem
          rw [symbolVolume_lookup txns k, if_neg hmem] at hsome
          cases hsome
  · exact (List.sorted_insertionSort _ _).sublist (List.take_sublist _ _)
  · intro p hp
    have hmem : p ∈ symbolVolume txns :=
      hperm.mem_iff.mp ((List.take_sublist _ _).mem hp)
    have hlook := lookup_of_mem_of_nodupKeys _ (symbolVolume_keys_nodup txns) p hmem
    have hkey : p.1 ∈ txns.map (·.symbol) := by
      by_contra hk
      rw [symbolVolume_lookup txns p.1, if_neg hk] at hlook
      cases hlook
    rw [symbolVolume_lookup txns p.1, if_pos hkey] at hlook
    exact (Option.some.inj hlook).symm

/-- Two equal-volume transactions whose symbols are in reverse lexical order. -/
def tieTransactions : List Transaction :=
  [{ id := "txn-0", date := 0, symbol := "BBB", type := TxType.buy, quantity := 1,
     price := 10, total := 10, fees := 0 },
   { id := "txn-1", date := 1, symbol := "AAA", type := TxType.buy, quantity := 1,
     price := 10, total := 10, fees := 0 }]

/-- Counterexample to C7 as stated: with two symbols of equal volume, the
stable sort keeps the first-occurrence order `BBB, AAA`, although `AAA`
precedes `BBB` lexically — ties are not broken by symbol lexical order. -/
theorem topTraded_tiebreak_counterexample :
    topTradedStocks tieTransactions = [("BBB", 10), ("AAA", 10)] ∧
    ("AAA" : String) < "BBB" := by
  constructor
  · norm_num [topTradedStocks, topTraded, symbolVolume, addVolume, tieTransactions,
      List.insertionSort, List.orderedInsert]
  · rw [String.lt_iff_toList_lt]
    decide

/-- A one-transaction ledger used to instantiate C7's entry clause. -/
def singleTransaction : List Transaction :=
  [{ id := "t0", date := 0, symbol := "NVDA", type := TxType.buy,
     quantity := 1, price := 25, total := 25, fees := 0 }]

/-- Witness for C7's per-entry volume clause at a concrete ledger. -/
theorem topTraded_spec_witness :
    (("NVDA" : String), (25 : ℚ)).2
      = symbolTotal singleTransaction (("NVDA" : String), (25 : ℚ)).1 :=
  (topTraded_spec singleTransaction 3).2.2.2 ("NVDA", 25)
    (by norm_num [topTraded, symbolVolume, addVolume, singleTransaction,
      List.insertionSort, List.orderedInsert])

/-! ## Metrics-engine claims -/

/-- On a non-empty series the report exists and its `monthlyReturn` field is
the `monthlyReturn` computation. -/
lemma calculateMockMetrics_map_monthlyReturn (ps : List Position)
    (snaps : List PortfolioSnapshot) (ys : Int) (hne : snaps ≠ []) :
    (calculateMockMetrics ps snaps ys).map (·.monthlyReturn)
      = some (monthlyReturn ps snaps) := by
  cases snaps with
  | nil => exact absurd rfl hne
  | cons s0 rest => rfl

/-- On a non-empty series the report's `monthlyReturnPercent` field is the
`monthlyReturnPercent` computation. -/
lemma calculateMockMetrics_map_monthlyReturnPercent (ps : List Position)
    (snaps : List PortfolioSnapshot) (ys : Int) (hne : snaps ≠ []) :
    (calculateMockMetrics ps snaps ys).map (·.monthlyReturnPercent)
      = some (monthlyReturnPercent ps snaps) := by
  cases snaps with
  | nil => exact absurd rfl hne
  | cons s0 rest => rfl

/-- On a non-empty series the report's `volatility` field is the `volatility`
computation. -/
lemma calculateMockMetrics_map_volatility (ps : List Position)
    (snaps : List PortfolioSnapshot) (ys : Int) (hne : snaps ≠ []) :
    (calculateMockMetrics ps snaps ys).map (·.volatility)
      = some (volatility snaps) := by
  cases snaps with
  | nil => exact absurd rfl hne
  | cons s0 rest => rfl

/-- On a non-empty series the report's `sharpeRatio` field is the
`sharpeRatio` computation. -/
lemma calculateMockMetrics_map_sharpeRatio (ps : List Position)
    (snaps : List PortfolioSnapshot) (ys : Int) (hne : snaps ≠ []) :
    (calculateMockMetrics ps snaps ys).map (·.sharpeRatio)
      = some (sharpeRatio ps snaps) := by
  cases snaps with
  | nil => exact absurd rfl hne
  | cons s0 rest => rfl

/-- On a non-empty series (with head `s0`) the report's `maxDrawdown` field is
the `maxDrawdown` loop started at `s0`. -/
lemma calculateMockMetrics_map_maxDrawdown (ps : List Position)
    (s0 : PortfolioSnapshot) (rest : List PortfolioSnapshot) (ys : Int) :
    (calculateMockMetrics ps (s0 :: rest) ys).map (·.maxDrawdown)
      = some (maxDrawdown s0 (s0 :: rest)) := rfl

/-- C1 (corrected): `calculateMockMetrics` performs no precondition
validation: it fails — with a runtime `TypeError` on the `snapshots[0]`
access, not an `InvalidInput` error — exactly when the snapshot series is
empty, and succeeds on every non-empty series, ordered or not; divide-by-zero
paths are not guarded and surface as JS `NaN`/`Infinity` field values
(`none`-valued `Option` fields of the report), not sentinels. -/
theorem calculateMockMetrics_throws_iff_empty (ps : List Position)
    (snaps : List PortfolioSnapshot) (ys : Int) :
    (calculateMockMetrics ps snaps ys).isSome ↔ snaps ≠ [] := by
  cases snaps with
  | nil => simp [calculateMockMetrics]
  | cons s0 rest => simp [calculateMockMetrics]

/-- A snapshot series whose timestamps are out of order. -/
def unorderedSnapshots : List PortfolioSnapshot :=
  [{ date := 5, totalValue := 100, cashBalance := 0, positions := [] },
   { date := 3, totalValue := 80, cashBalance := 0, positions := [] }]

/-- Counterexample to C1 as stated: on a series with decreasing timestamps —
a violated precondition — `calculateMockMetrics` does not fail at all (and in
particular raises no `InvalidInput`): it returns a report. -/
theorem calculateMockMetrics_unordered_counterexample :
    (calculateMockMetrics [] unorderedSnapshots 0).isSome = true ∧
    ¬ List.Chain' (· ≤ ·) (unorderedSnapshots.map (·.date)) := by
  constructor
  · rfl
  · simp [unorderedSnapshots]

/-- C5 (corrected): the monthly return is the current aggregate position
value minus the snapshot value at index `length - 30` when that index exists
and holds a nonzero value; when the series is shorter than 30 snapshots the
`|| currentValue` fallback makes the monthly return `0` — the oldest snapshot
is not consulted.  The percent is relative to the value actually used. -/
theorem monthlyReturn_spec (ps : List Position) (snaps : List PortfolioSnapshot)
    (ys : Int) (hne : snaps ≠ []) :
    (snaps.length < 30 →
      (calculateMockMetrics ps snaps ys).map (·.monthlyReturn) = some 0) ∧
    (∀ s : PortfolioSnapshot,
      jsIndex snaps ((snaps.length : Int) - 30) = some s → s.totalValue ≠ 0 →
      (calculateMockMetrics ps snaps ys).map (·.monthlyReturn)
          = some (currentValue ps - s.totalValue) ∧
        (calculateMockMetrics ps snaps ys).map (·.monthlyReturnPercent)
          = some (some ((currentValue ps - s.totalValue) / s.totalValue * 100))) := by
  constructor
  · intro hlen
    rw [calculateMockMetrics_map_monthlyReturn ps snaps ys hne]
    have hidx : jsIndex snaps ((snaps.length : Int) - 30) = (none : Option PortfolioSnapshot) := by
      have : ((snaps.length : Int) - 30) < 0 := by omega
      simp [jsIndex, this]
    simp [monthlyReturn, monthAgoValue, hidx, orFalsy]
  · intro s hs hnz
    have hma : monthAgoValue ps snaps = s.totalValue := by
      simp [monthAgoValue, hs, orFalsy, hnz]
    refine ⟨?_, ?_⟩
    · rw [calculateMockMetrics_map_monthlyReturn ps snaps ys hne]
      simp [monthlyReturn, hma]
    · rw [calculateMockMetrics_map_monthlyReturnPercent ps snaps ys hne]
      simp [monthlyReturnPercent, monthlyReturn, hma, jsDiv, hnz]

/-- A one-snapshot series whose (oldest = only) value is 50. -/
def shortSnapshots : List PortfolioSnapshot :=
  [{ date := 0, totalValue := 50, cashBalance := 0, positions := [] }]

/-- A single position worth 100. -/
def hundredPositions : List Position :=
  [{ symbol := "AAA", name := "A", quantity := 1, costBasis := 100,
     currentPrice := 100, marketValue := 100, gainLoss := 0, gainLossPercent := 0,
     sector := "S", assetType := "stock" }]

/-- Counterexample to C5 as stated: with a 1-snapshot series (value 50) and a
current position value of 100, the claim prescribes a monthly return of
`100 - 50 = 50` (current minus oldest available), but the source's fallback
produces `0`. -/
theorem monthlyReturn_counterexample :
    (calculateMockMetrics hundredPositions shortSnapshots 0).map (·.monthlyReturn)
        = some 0 ∧
      currentValue hundredPositions - shortSnapshots.headI.totalValue = 50 ∧
      (calculateMockMetrics hundredPositions shortSnapshots 0).map (·.monthlyReturn)
        ≠ some (currentValue hundredPositions - shortSnapshots.headI.totalValue) := by
  have h : (calculateMockMetrics hundredPositions shortSnapshots 0).map (·.monthlyReturn)
      = some 0 := by
    rw [show shortSnapshots
        = [{ date := 0, totalValue := 50, cashBalance := 0, positions := [] }] from rfl,
      calculateMockMetrics_map_monthlyReturn _ _ _ (by simp)]
    norm_num [monthlyReturn, monthAgoValue, jsIndex, orFalsy, currentValue,
      hundredPositions]
  have hv : currentValue hundredPositions - shortSnapshots.headI.totalValue = 50 := by
    norm_num [currentValue, hundredPositions, shortSnapshots, List.headI]
  refine ⟨h, hv, ?_⟩
  rw [h, hv]
  norm_num

/-- Witness for C5 at the short-series branch (a 1-snapshot series). -/
theorem monthlyReturn_spec_witness :
    (calculateMockMetrics [] shortSnapshots 0).map (·.monthlyReturn) = some 0 :=
  (monthlyReturn_spec [] shortSnapshots 0 (by simp [shortSnapshots])).1
    (by norm_num [shortSnapshots])

/-! ## Max drawdown (C4) -/

/-- Following the spec's words: scan the values in order, tracking the
running peak (seeded by the value before the scan), and record at each point
the drawdown `(peak - value) / peak * 100`. -/
def ddList (p : ℚ) : List ℚ → List ℚ
  | [] => []
  | v :: rest => (max p v - v) / max p v * 100 :: ddList (max p v) rest

/-- Following the spec's words: the maximum drawdown observed across the whole
series, with the running peak seeded by the first value. -/
def specMaxDrawdown : List ℚ → ℚ
  | [] => 0
  | v :: rest => (ddList v (v :: rest)).foldl max 0

/-- The source's peak update is the maximum. -/
lemma ifmax_eq_max (p v : ℚ) : (if p < v then v else p) = max p v := by
  by_cases h : p < v
  · simp [h, max_eq_right h.le]
  · simp [h, max_eq_left (not_lt.mp h)]

/-- Over positive values the source's drawdown fold computes the running
maximum of the spec's drawdown sequence. -/
lemma maxDrawdown_foldl_eq (vs : List ℚ) :
    ∀ p m : ℚ, 0 < p → (∀ v ∈ vs, 0 < v) →
      (vs.foldl ddStep (p, m)).2 = (ddList p vs).foldl max m := by
  induction vs with
  | nil => intro p m _ _; rfl
  | cons v rest ih =>
    intro p m hp hpos
    have hv : 0 < v := hpos v (List.mem_cons_self _ _)
    have hp' : 0 < max p v := lt_max_of_lt_left hp
    have hstep : ddStep (p, m) v = (max p v, max m ((max p v - v) / max p v * 100)) := by
      simp only [ddStep, jsDiv, ifmax_eq_max, if_neg (ne_of_gt hp')]
    simp only [List.foldl_cons, ddList, hstep]
    exact ih (max p v) _ hp' (fun w hw => hpos w (List.mem_cons_of_mem _ hw))

/-- The start value bounds a `max`-fold from below. -/
lemma le_foldl_max (l : List ℚ) : ∀ m : ℚ, m ≤ l.foldl max m := by
  induction l with
  | nil => intro m; exact le_refl m
  | cons x l ih => intro m; exact le_trans (le_max_left m x) (ih (max m x))

/-- A `max`-fold stays below any common upper bound. -/
lemma foldl_max_le (l : List ℚ) :
    ∀ m : ℚ, m ≤ 100 → (∀ x ∈ l, x ≤ 100) → l.foldl max m ≤ 100 := by
  induction l with
  | nil => intro m hm _; exact hm
  | cons x l ih =>
    intro m hm hl
    exact ih (max m x) (max_le hm (hl x (List.mem_cons_self _ _)))
      (fun y hy => hl y (List.mem_cons_of_mem _ hy))

/-- Every spec drawdown over positive values is at most 100. -/
lemma ddList_le_100 (vs : List ℚ) :
    ∀ p : ℚ, 0 < p → (∀ v ∈ vs, 0 < v) → ∀ d ∈ ddList p vs, d ≤ 100 := by
  induction vs with
  | nil => intro p _ _ d hd; cases hd
  | cons v rest ih =>
    intro p hp hpos d hd
    have hv : 0 < v := hpos v (List.mem_cons_self _ _)
    have hp' : 0 < max p v := lt_max_of_lt_left hp
    rcases List.mem_cons.mp hd with rfl | hd
    · have h1 : (max p v - v) / max p v ≤ 1 := by
        rw [div_le_one hp']
        linarith
      linarith
    · exact ih (max p v) hp' (fun w hw => hpos w (List.mem_cons_of_mem _ hw)) d hd

/-- Over a non-decreasing run the spec drawdowns are all zero. -/
lemma ddList_chain_zero (vs : List ℚ) :
    ∀ p : ℚ, List.Chain (· ≤ ·) p vs → ddList p vs = vs.map (fun _ => (0 : ℚ)) := by
  induction vs with
  | nil => intro p _; rfl
  | cons v rest ih =>
    intro p hchain
    rcases hchain with _ | ⟨hpv, hchain⟩
    simp only [ddList, max_eq_right hpv, sub_self, zero_div, zero_mul, List.map_cons]
    rw [ih v hchain]

/-- A `max`-fold of zeros from zero is zero. -/
lemma foldl_max_zero (l : List ℚ) :
    (l.map (fun _ => (0 : ℚ))).foldl max 0 = 0 := by
  induction l with
  | nil => rfl
  | cons x l ih => simpa using ih

/-- C4: on a non-empty series of positive values the report's max drawdown is
exactly the spec's maximum over all positions of
`(running peak - value) / running peak * 100`; it lies in `[0, 100]`, and a
monotonically non-decreasing series yields exactly `0`. -/
theorem maxDrawdown_spec (ps : List Position) (snaps : List PortfolioSnapshot)
    (ys : Int) (hne : snaps ≠ []) (hpos : ∀ s ∈ snaps, 0 < s.totalValue) :
    (calculateMockMetrics ps snaps ys).map (·.maxDrawdown)
        = some (specMaxDrawdown (snaps.map (·.totalValue))) ∧
    0 ≤ specMaxDrawdown (snaps.map (·.totalValue)) ∧
    specMaxDrawdown (snaps.map (·.totalValue)) ≤ 100 ∧
    (List.Chain' (· ≤ ·) (snaps.map (·.totalValue)) →
      specMaxDrawdown (snaps.map (·.totalValue)) = 0) := by
  cases snaps with
  | nil => exact absurd rfl hne
  | cons s0 rest =>
    have h0 : 0 < s0.totalValue := hpos s0 (List.mem_cons_self _ _)
    have hall : ∀ v ∈ (s0 :: rest).map (·.totalValue), 0 < v := by
      intro v hv
      rcases List.mem_map.mp hv with ⟨s, hs, rfl⟩
      exact hpos s hs
    have hfold : maxDrawdown s0 (s0 :: rest)
        = specMaxDrawdown ((s0 :: rest).map (·.totalValue)) := by
      rw [maxDrawdown, maxDrawdown_foldl_eq _ _ _ h0 hall]
      rfl
    refine ⟨?_, ?_, ?_, ?_⟩
    · rw [calculateMockMetrics_map_maxDrawdown, hfold]
    · rw [← hfold, maxDrawdown, maxDrawdown_foldl_eq _ _ _ h0 hall]
      exact le_foldl_max _ 0
    · rw [← hfold, maxDrawdown, maxDrawdown_foldl_eq _ _ _ h0 hall]
      exact foldl_max_le _ 0 (by norm_num)
        (ddList_le_100 _ _ h0 hall)
    · intro hchain
      show (ddList s0.totalValue (s0.totalValue :: rest.map (·.totalValue))).foldl max 0 = 0
      have hchain' : List.Chain (· ≤ ·) s0.totalValue (rest.map (·.totalValue)) := by
        simpa [List.Chain'] using hchain
      rw [ddList, max_self, sub_self, zero_div, zero_mul,
        ddList_chain_zero _ _ hchain']
      simpa using foldl_max_zero (rest.map (·.totalValue))

/-- The spec's own concrete drawdown scenario: values 100, 120, 90, 130. -/
def drawdownScenario : List PortfolioSnapshot :=
  [{ date := 0, totalValue := 100, cashBalance := 0, positions := [] },
   { date := 1, totalValue := 120, cashBalance := 0, positions := [] },
   { date := 2, totalValue := 90, cashBalance := 0, positions := [] },
   { date := 3, totalValue := 130, cashBalance := 0, positions := [] }]

/-- Witness for C4 at the spec's 100/120/90/130 scenario. -/
theorem maxDrawdown_spec_witness :
    (calculateMockMetrics [] drawdownScenario 0).map (·.maxDrawdown)
        = some (specMaxDrawdown (drawdownScenario.map (·.totalValue))) ∧
      0 ≤ specMaxDrawdown (drawdownScenario.map (·.totalValue)) ∧
      specMaxDrawdown (drawdownScenario.map (·.totalValue)) ≤ 100 := by
  have h := maxDrawdown_spec [] drawdownScenario 0 (by simp [drawdownScenario])
    (by
      intro s hs
      simp only [drawdownScenario, List.mem_cons, List.not_mem_nil, or_false] at hs
      rcases hs with rfl | rfl | rfl | rfl <;> norm_num)
  exact ⟨h.1, h.2.1, h.2.2.1⟩

/-! ## Volatility (C2) and Sharpe ratio (C6) -/

/-- Following the spec's words: the per-period fractional returns
`(v[i] - v[i-1]) / v[i-1]` between consecutive snapshots. -/
def specReturns (snaps : List PortfolioSnapshot) : List ℚ :=
  (snaps.zip snaps.tail).map
    (fun pc => (pc.2.totalValue - pc.1.totalValue) / pc.1.totalValue)

/-- Population variance (dividing by `N`), the quantity the source computes. -/
def popVariance (rs : List ℚ) : ℚ :=
  (rs.map (fun r => (r - rs.sum / rs.length) ^ 2)).sum / rs.length

/-- Sample variance (dividing by `N - 1`), the quantity the spec names. -/
def sampleVariance (rs : List ℚ) : ℚ :=
  (rs.map (fun r => (r - rs.sum / rs.length) ^ 2)).sum / ((rs.length : ℚ) - 1)

/-- Modelled from the spec: volatility as the sample standard deviation of the
per-period returns, annualized by `√252` and expressed as a percentage. -/
noncomputable def specSampleVolatility (snaps : List PortfolioSnapshot) : ℝ :=
  Real.sqrt ((sampleVariance (specReturns snaps) : ℝ) * 252) * 100

/-- `mapO` succeeds pointwise when every element does. -/
lemma mapO_eq_some_of_forall {α β : Type} {f : α → Option β} {g : α → β}
    (l : List α) (h : ∀ x ∈ l, f x = some (g x)) : mapO f l = some (l.map g) := by
  induction l with
  | nil => rfl
  | cons a l ih =>
    simp only [mapO, h a (List.mem_cons_self _ _),
      ih (fun x hx => h x (List.mem_cons_of_mem _ hx)), List.map_cons]

/-- With nonzero snapshot values the source's return list is the spec's. -/
lemma dailyReturns_eq (snaps : List PortfolioSnapshot)
    (hnz : ∀ s ∈ snaps, s.totalValue ≠ 0) :
    dailyReturns snaps = some (specReturns snaps) := by
  unfold dailyReturns specReturns
  apply mapO_eq_some_of_forall
  intro pc hpc
  obtain ⟨a, b⟩ := pc
  have h1 : a ∈ snaps := (List.of_mem_zip hpc).1
  simp [jsDiv, hnz a h1]

/-- There is one fewer return than snapshots. -/
lemma specReturns_length (snaps : List PortfolioSnapshot) :
    (specReturns snaps).length = snaps.length - 1 := by
  rw [specReturns, List.length_map, List.length_zip, List.length_tail,
    min_eq_right (Nat.sub_le _ _)]

/-- With a nonzero count of returns the source's mean return is the plain
average of the spec's return sequence. -/
lemma avgReturn_eq (snaps : List PortfolioSnapshot)
    (hnz : ∀ s ∈ snaps, s.totalValue ≠ 0)
    (hlenQ : ((specReturns snaps).length : ℚ) ≠ 0) :
    avgReturn snaps
      = some ((specReturns snaps).sum / ((specReturns snaps).length : ℚ)) := by
  rw [avgReturn, dailyReturns_eq snaps hnz]
  show jsDiv (specReturns snaps).sum ((specReturns snaps).length : ℚ) = _
  rw [jsDiv, if_neg hlenQ]

/-- With at least two snapshots of nonzero value, the source's variance is
the population variance of the spec's return sequence. -/
lemma variance_eq (snaps : List PortfolioSnapshot) (hlen : 2 ≤ snaps.length)
    (hnz : ∀ s ∈ snaps, s.totalValue ≠ 0) :
    variance snaps = some (popVariance (specReturns snaps)) := by
  have hlen' : (specReturns snaps).length ≠ 0 := by
    rw [specReturns_length]
    omega
  have hlenQ : ((specReturns snaps).length : ℚ) ≠ 0 := Nat.cast_ne_zero.mpr hlen'
  rw [variance, dailyReturns_eq snaps hnz]
  show (avgReturn snaps).bind _ = _
  rw [avgReturn_eq snaps hnz hlenQ]
  show jsDiv _ ((specReturns snaps).length : ℚ) = _
  rw [jsDiv, if_neg hlenQ, popVariance]

/-- C2 (corrected): with at least 2 snapshots of nonzero value the volatility
is the **population** standard deviation (`÷ N`, not the sample `÷ (N-1)`) of
the per-period returns, annualized by `√252`, as a percentage; with a single
snapshot (zero returns available) it is the `NaN` of `0/0` (`none`), not a
zero or sentinel. -/
theorem volatility_spec (ps : List Position) (snaps : List PortfolioSnapshot)
    (ys : Int) :
    (2 ≤ snaps.length → (∀ s ∈ snaps, s.totalValue ≠ 0) →
      (calculateMockMetrics ps snaps ys).map (·.volatility)
        = some (some (Real.sqrt ((popVariance (specReturns snaps) : ℝ) * 252) * 100))) ∧
    (∀ s : PortfolioSnapshot,
      (calculateMockMetrics ps [s] ys).map (·.volatility) = some none) := by
  constructor
  · intro hlen hnz
    have hne : snaps ≠ [] := by
      intro h
      rw [h] at hlen
      exact absurd hlen (by norm_num)
    rw [calculateMockMetrics_map_volatility _ _ _ hne, volatility,
      variance_eq snaps hlen hnz]
    rfl
  · intro s
    rw [calculateMockMetrics_map_volatility _ _ _ (by simp)]
    simp [volatility, variance, avgReturn, dailyReturns, mapO, jsDiv]

/-- Snapshots with values 1, 2, 3 (returns 1 and 1/2). -/
def threeSnapshots : List PortfolioSnapshot :=
  [{ date := 0, totalValue := 1, cashBalance := 0, positions := [] },
   { date := 1, totalValue := 2, cashBalance := 0, positions := [] },
   { date := 2, totalValue := 3, cashBalance := 0, positions := [] }]

/-- Counterexample to C2 as stated: on values 1, 2, 3 the source's volatility
(population variance 1/16) differs from the spec's sample-deviation
volatility (sample variance 1/8). -/
theorem volatility_sample_counterexample :
    (calculateMockMetrics [] threeSnapshots 0).map (·.volatility)
      ≠ some (some (specSampleVolatility threeSnapshots)) := by
  have hdr : dailyReturns threeSnapshots = some [1, 1/2] := by
    norm_num [dailyReturns, mapO, jsDiv, threeSnapshots]
  have havg : avgReturn threeSnapshots = some (3/4) := by
    rw [avgReturn, hdr]
    show jsDiv _ _ = _
    norm_num [jsDiv]
  have hvar : variance threeSnapshots = some (1/16) := by
    rw [variance, hdr, Option.some_bind, havg, Option.some_bind]
    show jsDiv _ _ = _
    norm_num [jsDiv]
  have hsv : sampleVariance (specReturns threeSnapshots) = 1/8 := by
    norm_num [sampleVariance, specReturns, threeSnapshots]
  intro h
  rw [calculateMockMetrics_map_volatility _ _ _ (by simp [threeSnapshots])] at h
  have h2 : volatility threeSnapshots = some (specSampleVolatility threeSnapshots) :=
    Option.some.inj h
  rw [volatility, hvar, Option.map_some'] at h2
  have h3 := Option.some.inj h2
  rw [specSampleVolatility, hsv] at h3
  have hlt : Real.sqrt (((1/16 : ℚ) : ℝ) * 252) * 100
      < Real.sqrt (((1/8 : ℚ) : ℝ) * 252) * 100 := by
    apply mul_lt_mul_of_pos_right _ (by norm_num : (0 : ℝ) < 100)
    apply Real.sqrt_lt_sqrt
    · push_cast
      norm_num
    · push_cast
      norm_num
  exact absurd h3 (ne_of_lt hlt)

/-- Snapshots with values 1, 2 (a single return, population variance 0). -/
def twoSnapshots : List PortfolioSnapshot :=
  [{ date := 0, totalValue := 1, cashBalance := 0, positions := [] },
   { date := 1, totalValue := 2, cashBalance := 0, positions := [] }]

/-- Witness for C2 at the two-snapshot series. -/
theorem volatility_spec_witness :
    (calculateMockMetrics [] twoSnapshots 0).map (·.volatility)
      = some (some (Real.sqrt ((popVariance (specReturns twoSnapshots) : ℝ) * 252)
          * 100)) :=
  (volatility_spec [] twoSnapshots 0).1 (by norm_num [twoSnapshots])
    (by
      intro s hs
      simp only [twoSnapshots, List.mem_cons, List.not_mem_nil, or_false] at hs
      rcases hs with rfl | rfl <;> norm_num)

/-- C6 (corrected): with a defined total-return percent and a defined
variance `w`, the Sharpe ratio is
`(totalReturnPercent/100 - 0.04) / (volatility/100)` when the volatility is
nonzero (`0 < w`), while a zero volatility (`w = 0`) produces the JS
`±Infinity`/`NaN` of an unguarded division by zero (`none`), not a defined
sentinel. -/
theorem sharpeRatio_spec (ps : List Position) (snaps : List PortfolioSnapshot)
    (ys : Int) (trp w : ℚ) (hne : snaps ≠ [])
    (htrp : totalReturnPercent ps = some trp)
    (hvar : variance snaps = some w) :
    (0 < w →
      (calculateMockMetrics ps snaps ys).map (·.sharpeRatio)
        = some (some (((trp / 100 - riskFreeRate : ℚ) : ℝ)
            / (Real.sqrt ((w : ℝ) * 252) * 100 / 100)))) ∧
    (w = 0 →
      (calculateMockMetrics ps snaps ys).map (·.sharpeRatio) = some none) := by
  have hvol : volatility snaps = some (Real.sqrt ((w : ℝ) * 252) * 100) := by
    rw [volatility, hvar, Option.map_some']
  have hex : excessReturn ps = some (trp / 100 - riskFreeRate) := by
    rw [excessReturn, htrp, Option.map_some']
  constructor
  · intro hw
    have hpos : (0 : ℝ) < Real.sqrt ((w : ℝ) * 252) :=
      Real.sqrt_pos.mpr (by positivity)
    have h100 : Real.sqrt ((w : ℝ) * 252) * 100 / 100 = Real.sqrt ((w : ℝ) * 252) := by
      field_simp
    have hden : Real.sqrt ((w : ℝ) * 252) * 100 / 100 ≠ 0 := by
      rw [h100]
      exact ne_of_gt hpos
    rw [calculateMockMetrics_map_sharpeRatio _ _ _ hne, sharpeRatio, hex,
      Option.some_bind, hvol, Option.some_bind, jsDivR, if_neg hden]
  · intro hw
    subst hw
    have hzero : Real.sqrt (((0 : ℚ) : ℝ) * 252) * 100 = 0 := by
      norm_num
    rw [calculateMockMetrics_map_sharpeRatio _ _ _ hne, sharpeRatio, hex,
      Option.some_bind, hvol, Option.some_bind, hzero, jsDivR,
      if_pos (by norm_num : (0 : ℝ) / 100 = 0)]

/-- A position bought for 100 and now worth 110 (total return percent 10). -/
def gainPositions : List Position :=
  [{ symbol := "GGG", name := "Gain Corp", quantity := 1, costBasis := 100,
     currentPrice := 110, marketValue := 110, gainLoss := 10, gainLossPercent := 10,
     sector := "Technology", assetType := "stock" }]

/-- A flat two-snapshot series (both values 100): volatility is exactly 0. -/
def flatSnapshots : List PortfolioSnapshot :=
  [{ date := 0, totalValue := 100, cashBalance := 0, positions := [] },
   { date := 1, totalValue := 100, cashBalance := 0, positions := [] }]

/-- Counterexample to C6 as stated: on a flat series the volatility is 0 and
the Sharpe ratio is the unguarded `±Infinity` of division by zero (`none`),
not a defined sentinel value. -/
theorem sharpeRatio_zero_vol_counterexample :
    (calculateMockMetrics gainPositions flatSnapshots 0).map (·.volatility)
        = some (some 0) ∧
      (calculateMockMetrics gainPositions flatSnapshots 0).map (·.sharpeRatio)
        = some none := by
  have hdr : dailyReturns flatSnapshots = some [0] := by
    norm_num [dailyReturns, mapO, jsDiv, flatSnapshots]
  have havg : avgReturn flatSnapshots = some 0 := by
    rw [avgReturn, hdr, Option.some_bind]
    show jsDiv _ _ = _
    norm_num [jsDiv]
  have hvar : variance flatSnapshots = some 0 := by
    rw [variance, hdr, Option.some_bind, havg, Option.some_bind]
    show jsDiv _ _ = _
    norm_num [jsDiv]
  have htrp : totalReturnPercent gainPositions = some 10 := by
    norm_num [totalReturnPercent, totalReturn, currentValue, totalCost, jsDiv,
      gainPositions]
  have hex : excessReturn gainPositions = some (10 / 100 - riskFreeRate) := by
    rw [excessReturn, htrp, Option.map_some']
  have hvol : (calculateMockMetrics gainPositions flatSnapshots 0).map (·.volatility)
      = some (some 0) := by
    rw [calculateMockMetrics_map_volatility _ _ _ (by simp [flatSnapshots]),
      volatility, hvar, Option.map_some']
    norm_num
  refine ⟨hvol, ?_⟩
  have hvol' : volatility flatSnapshots = some 0 := by
    rw [volatility, hvar, Option.map_some']
    norm_num
  rw [calculateMockMetrics_map_sharpeRatio _ _ _ (by simp [flatSnapshots]),
    sharpeRatio, hex, Option.some_bind, hvol', Option.some_bind, jsDivR,
    if_pos (by norm_num : (0 : ℝ) / 100 = 0)]

/-- Witness for C6's nonzero-volatility branch at the 1, 2, 3 series. -/
theorem sharpeRatio_spec_witness :
    (calculateMockMetrics gainPositions threeSnapshots 0).map (·.sharpeRatio)
      = some (some ((((10 : ℚ) / 100 - riskFreeRate : ℚ) : ℝ)
          / (Real.sqrt (((1/16 : ℚ) : ℝ) * 252) * 100 / 100))) := by
  have hdr : dailyReturns threeSnapshots = some [1, 1/2] := by
    norm_num [dailyReturns, mapO, jsDiv, threeSnapshots]
  have havg : avgReturn threeSnapshots = some (3/4) := by
    rw [avgReturn, hdr, Option.some_bind]
    show jsDiv _ _ = _
    norm_num [jsDiv]
  have hvar : variance threeSnapshots = some (1/16) := by
    rw [variance, hdr, Option.some_bind, havg, Option.some_bind]
    show jsDiv _ _ = _
    norm_num [jsDiv]
  have htrp : totalReturnPercent gainPositions = some 10 := by
    norm_num [totalReturnPercent, totalReturn, currentValue, totalCost, jsDiv,
      gainPositions]
  exact (sharpeRatio_spec gainPositions threeSnapshots 0 10 (1/16)
    (by simp [threeSnapshots]) htrp hvar).1 (by norm_num)

end Hub
